import Mathlib

/-!
Verification of the `djhelpers` IoC container (`djhelpers/ioc.py`).

The development shallowly embeds the container: Python's mutable
`ApplicationContext` becomes explicit state passing over a `Ctx` record,
Python dicts become insertion-ordered association lists, and object
identity becomes an allocation counter: every factory invocation is
modelled as allocating a fresh `PyVal.obj` with the next counter value and
is recorded in an instrumentation trace `Ctx.calls` (this models factories
such as `lambda: object()` that produce a fresh instance per call, which
is the reading under which identity claims are stated).  Fallible code
returns `Except`; because Python mutations performed before an exception
persist, every stateful operation returns its (possibly mutated) state
alongside the `Except` result.  Recursion in `get`/`_eval_arg` is made
total with a fuel parameter; `Err.fuelOut` is the nontermination artifact
and never corresponds to a Python behaviour claimed by the spec.
-/

/-- Python values appearing as construction arguments and instances.
`obj n` is the instance allocated by the `n`-th factory invocation;
`int`/`str` are plain immutable values; `list`/`dict` are containers
(the code converts tuples and sets to lists during evaluation). -/
inductive PyVal where
  | obj : Nat → PyVal
  | int : Int → PyVal
  | str : String → PyVal
  | list : List PyVal → PyVal
  | dict : List (String × PyVal) → PyVal

/-- A registration-time argument tree (`args`/`kwargs` values in
`ioc.py`): an `Inject` marker (ioc.py line 30), a plain value, an ordered
sequence (list/tuple; sets are also sent to the list branch by
`_eval_arg`), or a dict. -/
inductive Arg where
  | inject : String → Arg
  | atom : PyVal → Arg
  | seq : List Arg → Arg
  | table : List (String × Arg) → Arg

/-- The value stored in `ObjectDefinition.scope`.  `register` (ioc.py
line 111) passes its `singelton` parameter — default the *boolean*
`True` — positionally into the `scope` slot of `ObjectDefinition`, so a
scope can be the boolean `True` as well as one of the scope strings;
Python's `==` between `True` and a string is `False`, which
`DecidableEq` on this type reproduces. -/
inductive ScopeVal where
  | pyTrue : ScopeVal
  | pyFalse : ScopeVal
  | str : String → ScopeVal
deriving DecidableEq

/-- `ObjectDefinition.SCOPE_SINGLETON` (ioc.py line 60). -/
def SCOPE_SINGLETON : ScopeVal := ScopeVal.str "singleton"
/-- `ObjectDefinition.SCOPE_PROTOTYPE` (ioc.py line 61). -/
def SCOPE_PROTOTYPE : ScopeVal := ScopeVal.str "prototype"
/-- `ObjectDefinition.SCOPE_REQUEST` (ioc.py line 62). -/
def SCOPE_REQUEST : ScopeVal := ScopeVal.str "request"
/-- `ObjectDefinition.SCOPE_SESSION` (ioc.py line 63). -/
def SCOPE_SESSION : ScopeVal := ScopeVal.str "session"

/-- Errors: `ObjectDefinitionNotFound` (ioc.py line 23), a Python
`KeyError` (possible in `RequestApplicationContext._get_session_store`),
`internal` marks match branches unreachable in the source, and `fuelOut`
is the termination artifact of the embedding. -/
inductive Err where
  | notFound : String → Err
  | keyError : Err
  | internal : Err
  | fuelOut : Err
deriving DecidableEq

/-- Association list modelling a Python dict: insertion-ordered,
key update in place. -/
def lookupA {α : Type} : List (String × α) → String → Option α
  | [], _ => none
  | (k', v') :: rest, k => if k' = k then some v' else lookupA rest k

/-- Python dict item assignment `m[k] = v`: replaces the binding in
place when the key exists, otherwise appends. -/
def insertA {α : Type} : List (String × α) → String → α → List (String × α)
  | [], k, v => [(k, v)]
  | (k', v') :: rest, k, v =>
      if k' = k then (k, v) :: rest else (k', v') :: insertA rest k v

/-- `ObjectDefinition` (ioc.py line 55): the stored registration record.
The `inject` constructor parameter is modelled in
`ObjectDefinition.make`; the source `__init__` never stores it, so the
record has no such field. -/
structure ObjectDefinition where
  object_id : String
  factory : String
  args : List Arg
  kwargs : List (String × Arg)
  scope : ScopeVal

/-- `ObjectDefinition.__init__` (ioc.py line 65): stores
`object_id`, `factory`, `args` (defaulted to `[]`), `kwargs`
(defaulted to `{}`) and `scope`; the `inject` parameter is accepted and
discarded. -/
def ObjectDefinition.make (object_id factory : String) (args : List Arg)
    (kwargs : List (String × Arg)) (inject : Option (List (String × String)))
    (scope : ScopeVal) : ObjectDefinition :=
  ⟨object_id, factory, args, kwargs, scope⟩

/-- A recorded factory invocation: which factory was called and with
which evaluated positional and keyword arguments (instrumentation of
`impl_class(*args, **kwargs)` in `_create`, ioc.py line 168). -/
structure FactoryCall where
  factory : String
  args : List PyVal
  kwargs : List (String × PyVal)

/-- The state of an `ApplicationContext` (ioc.py line 88): `config` is
`self._config`, `singeltons` is `self._singeltons` (spelling from the
source), `nextId` is the allocation counter and `calls` the trace of
factory invocations (both instrumentation of object identity). -/
structure Ctx where
  config : List (String × ObjectDefinition)
  singeltons : List (String × PyVal)
  nextId : Nat
  calls : List FactoryCall

/-- `ApplicationContext.__init__` with no initial config. -/
def emptyCtx : Ctx := ⟨[], [], 0, []⟩

/-- Result of a stateful fallible operation: the `Except` outcome plus
the state as mutated up to the return or raise point. -/
abbrev Res := Except Err PyVal × Ctx

/-- `ApplicationContext._eval_arg` (ioc.py line 142), parameterised by
the resolver `g` used for `Inject` markers (`arg(self)`, which is
`self.get(arg.object_id)`, ioc.py line 52).  Lists evaluate element by
element, threading the context; dicts evaluate each value keeping keys
and order.  The fuel argument bounds the structural depth traversed and
decreases on every recursive call so that the definition is structural
(and kernel-reducible); the `Err.internal` branches are unreachable
because a `seq` always evaluates to a `list` and a `table` to a
`dict`. -/
def evalArg (g : Ctx → String → Res) : Nat → Ctx → Arg → Res
  | 0, ctx, _ => (Except.error Err.fuelOut, ctx)
  | _ + 1, ctx, Arg.inject oid => g ctx oid
  | _ + 1, ctx, Arg.atom v => (Except.ok v, ctx)
  | _ + 1, ctx, Arg.seq [] => (Except.ok (PyVal.list []), ctx)
  | n + 1, ctx, Arg.seq (a :: as) =>
      match evalArg g n ctx a with
      | (Except.ok v, c1) =>
          match evalArg g n c1 (Arg.seq as) with
          | (Except.ok (PyVal.list vs), c2) =>
              (Except.ok (PyVal.list (v :: vs)), c2)
          | (Except.ok _, c2) => (Except.error Err.internal, c2)
          | (Except.error e, c2) => (Except.error e, c2)
      | (Except.error e, c1) => (Except.error e, c1)
  | _ + 1, ctx, Arg.table [] => (Except.ok (PyVal.dict []), ctx)
  | n + 1, ctx, Arg.table ((k, a) :: rest) =>
      match evalArg g n ctx a with
      | (Except.ok v, c1) =>
          match evalArg g n c1 (Arg.table rest) with
          | (Except.ok (PyVal.dict es), c2) =>
              (Except.ok (PyVal.dict ((k, v) :: es)), c2)
          | (Except.ok _, c2) => (Except.error Err.internal, c2)
          | (Except.error e, c2) => (Except.error e, c2)
      | (Except.error e, c1) => (Except.error e, c1)

/-- `ApplicationContext._create` (ioc.py line 153): evaluates the
definition's whole `args` list and `kwargs` dict through `_eval_arg`
(the source passes the containers themselves to `_eval_arg`), then
invokes the factory: modelled as allocating `PyVal.obj nextId` and
recording the invocation in `calls`. -/
def createF (g : Ctx → String → Res) (n : Nat) (ctx : Ctx)
    (d : ObjectDefinition) : Res :=
  match evalArg g n ctx (Arg.seq d.args) with
  | (Except.ok (PyVal.list argVals), c1) =>
      match evalArg g n c1 (Arg.table d.kwargs) with
      | (Except.ok (PyVal.dict kwVals), c2) =>
          (Except.ok (PyVal.obj c2.nextId),
            { c2 with
                nextId := c2.nextId + 1
                calls := c2.calls ++ [⟨d.factory, argVals, kwVals⟩] })
      | (Except.ok _, c2) => (Except.error Err.internal, c2)
      | (Except.error e, c2) => (Except.error e, c2)
  | (Except.ok _, c1) => (Except.error Err.internal, c1)
  | (Except.error e, c1) => (Except.error e, c1)

/-- `ApplicationContext.get` (ioc.py line 170): singleton-cache fast
path, then definition lookup (raising `ObjectDefinitionNotFound` when
absent, `_get_object_def`, ioc.py line 209), then `_create`, then the
instance is cached iff the stored scope equals the string
`'singleton'`. -/
def getF : Nat → Ctx → String → Res
  | 0, ctx, _ => (Except.error Err.fuelOut, ctx)
  | n + 1, ctx, object_id =>
      match lookupA ctx.singeltons object_id with
      | some v => (Except.ok v, ctx)
      | none =>
          match lookupA ctx.config object_id with
          | none => (Except.error (Err.notFound object_id), ctx)
          | some d =>
              match createF (getF n) n ctx d with
              | (Except.ok o, c) =>
                  if d.scope = SCOPE_SINGLETON then
                    (Except.ok o,
                      { c with singeltons := insertA c.singeltons object_id o })
                  else (Except.ok o, c)
              | (Except.error e, c) => (Except.error e, c)

/-- One-step unfolding of `getF` at positive fuel. -/
theorem getF_succ (n : Nat) (ctx : Ctx) (object_id : String) :
    getF (n + 1) ctx object_id =
      match lookupA ctx.singeltons object_id with
      | some v => (Except.ok v, ctx)
      | none =>
          match lookupA ctx.config object_id with
          | none => (Except.error (Err.notFound object_id), ctx)
          | some d =>
              match createF (getF n) n ctx d with
              | (Except.ok o, c) =>
                  if d.scope = SCOPE_SINGLETON then
                    (Except.ok o,
                      { c with singeltons := insertA c.singeltons object_id o })
                  else (Except.ok o, c)
              | (Except.error e, c) => (Except.error e, c) := rfl

/-- `ApplicationContext.get_scope` (ioc.py line 195) composed with
`_get_object_def` (ioc.py line 209). -/
def getScopeF (ctx : Ctx) (object_id : String) : Except Err ScopeVal :=
  match lookupA ctx.config object_id with
  | none => Except.error (Err.notFound object_id)
  | some d => Except.ok d.scope

/-- `ApplicationContext.register` (ioc.py line 111): builds an
`ObjectDefinition` from its parameters — note that the sixth positional
argument of `ObjectDefinition.__init__` is `scope`, so `register`'s
`singelton` parameter lands in the `scope` slot — and stores it under
`object_id`, overwriting any previous definition. -/
def registerF (ctx : Ctx) (object_id factory : String) (args : List Arg)
    (kwargs : List (String × Arg)) (inject : Option (List (String × String)))
    (singelton : ScopeVal) : Ctx :=
  { ctx with
      config := insertA ctx.config object_id
        (ObjectDefinition.make object_id factory args kwargs inject singelton) }

/-- A `register` call that leaves `args`, `kwargs`, `inject` and
`singelton` at their Python defaults (`None`, `None`, `None`,
`True`). -/
def registerDefault (ctx : Ctx) (object_id factory : String) : Ctx :=
  registerF ctx object_id factory [] [] none ScopeVal.pyTrue

/-- `ApplicationContext.reset` (ioc.py line 133): clears `_config` and
`_singeltons` (the instrumentation counter and trace are not Python
state and are kept). -/
def resetF (ctx : Ctx) : Ctx :=
  { ctx with config := [], singeltons := [] }

/-- One entry of a `load_config` configuration: the full tuple of
`register` arguments. -/
structure RegEntry where
  object_id : String
  factory : String
  args : List Arg
  kwargs : List (String × Arg)
  inject : Option (List (String × String))
  singelton : ScopeVal

/-- `ApplicationContext.load_config` (ioc.py line 107): applies
`register` to each entry in sequence order. -/
def loadConfigF (ctx : Ctx) (cfg : List RegEntry) : Ctx :=
  cfg.foldl (fun c e =>
    registerF c e.object_id e.factory e.args e.kwargs e.inject e.singelton) ctx

/-- The non-`reset` operations of the public `ApplicationContext` API
(`getOp` carries the fuel its resolution runs with). -/
inductive Op where
  | registerOp (object_id factory : String) (args : List Arg)
      (kwargs : List (String × Arg)) (inject : Option (List (String × String)))
      (singelton : ScopeVal)
  | loadConfigOp (cfg : List RegEntry)
  | getOp (fuel : Nat) (object_id : String)
  | getScopeOp (object_id : String)

/-- The state transition of one API call: `get` keeps whatever state it
reached (Python mutations persist whether or not the call raised);
`get_scope` is read-only. -/
def stepOp (ctx : Ctx) : Op → Ctx
  | Op.registerOp oid fac a k i s => registerF ctx oid fac a k i s
  | Op.loadConfigOp cfg => loadConfigF ctx cfg
  | Op.getOp n oid => (getF n ctx oid).2
  | Op.getScopeOp _ => ctx

/-- Runs a sequence of API calls. -/
def runOps (ctx : Ctx) (ops : List Op) : Ctx :=
  ops.foldl stepOp ctx

/-- The external request object as `RequestApplicationContext` sees it:
`sessionHasKey` is whether `SESSION_KEY in request.session`, and `item`
is the value of `request[SESSION_KEY]` (`none` when that item was never
assigned).  Note the source (ioc.py line 241) tests membership in
`request.session` but reads and writes `request[...]`. -/
structure Request where
  sessionHasKey : Bool
  item : Option (List (String × PyVal))

/-- `RequestApplicationContext._get_session_store` (ioc.py line 241):
when `SESSION_KEY` is not in `request.session`, `request[SESSION_KEY]`
is (re-)assigned a fresh empty dict; then `request[SESSION_KEY]` is
returned — a `KeyError` when the session has the key but the request
item was never assigned. -/
def getSessionStore (r : Request) :
    Except Err (List (String × PyVal)) × Request :=
  if r.sessionHasKey then
    match r.item with
    | some s => (Except.ok s, r)
    | none => (Except.error Err.keyError, r)
  else
    (Except.ok [], { r with item := some [] })

/-- Combined state of one base `ApplicationContext` shared by two
`RequestApplicationContext` wrappers over one shared request object:
`store1`/`store2` are the wrappers' private `_request_store` dicts. -/
structure RState where
  app : Ctx
  req : Request
  store1 : List (String × PyVal)
  store2 : List (String × PyVal)

/-- The `_request_store` of the selected wrapper
(`RequestApplicationContext._get_request_store`, ioc.py line 246). -/
def rstore (which : Bool) (s : RState) : List (String × PyVal) :=
  if which then s.store1 else s.store2

/-- Writes back the selected wrapper's `_request_store`. -/
def setRstore (which : Bool) (s : RState)
    (st : List (String × PyVal)) : RState :=
  if which then { s with store1 := st } else { s with store2 := st }

/-- `RequestApplicationContext.get` (ioc.py line 256) for the wrapper
selected by `which`.  The source builds the list
`[self._get_request_store(), self._get_session_store()]` before
iterating, so `_get_session_store` runs (and possibly re-initialises
`request[SESSION_KEY]`) even when the request store has a hit; then the
request store and the session store are checked in order; on a miss the
wrapped context's `get` runs, and `_add_to_store` (ioc.py line 249)
looks up the declared scope and files the instance into the request
store for `'request'` scope or into `self._get_session_store()` for
`'session'` scope (a second store access, which re-initialises the
store again when the session lacks the key). -/
def rget (which : Bool) (n : Nat) (s : RState) (object_id : String) :
    Except Err PyVal × RState :=
  match getSessionStore s.req with
  | (Except.error e, r1) => (Except.error e, { s with req := r1 })
  | (Except.ok sessionSt, r1) =>
      let s1 : RState := { s with req := r1 }
      match lookupA (rstore which s1) object_id with
      | some v => (Except.ok v, s1)
      | none =>
          match lookupA sessionSt object_id with
          | some v => (Except.ok v, s1)
          | none =>
              match getF n s1.app object_id with
              | (Except.error e, c) => (Except.error e, { s1 with app := c })
              | (Except.ok o, c) =>
                  let s2 : RState := { s1 with app := c }
                  match getScopeF c object_id with
                  | Except.error e => (Except.error e, s2)
                  | Except.ok sc =>
                      if sc = SCOPE_REQUEST then
                        (Except.ok o,
                          setRstore which s2
                            (insertA (rstore which s2) object_id o))
                      else if sc = SCOPE_SESSION then
                        match getSessionStore s2.req with
                        | (Except.error e, r2) =>
                            (Except.error e, { s2 with req := r2 })
                        | (Except.ok st2, r2) =>
                            (Except.ok o,
                              { s2 with req :=
                                  { r2 with
                                      item := some (insertA st2 object_id o) } })
                      else (Except.ok o, s2)

/-! ### Association-list lemmas -/

theorem lookupA_insertA_self {α : Type} (m : List (String × α)) (k : String)
    (v : α) : lookupA (insertA m k v) k = some v := by
  induction m with
  | nil => simp [insertA, lookupA]
  | cons p rest ih =>
      obtain ⟨k', v'⟩ := p
      by_cases h : k' = k
      · simp [insertA, lookupA, h]
      · simp [insertA, lookupA, h, ih]

theorem lookupA_insertA_ne {α : Type} (m : List (String × α)) (k i : String)
    (v : α) (h : i ≠ k) : lookupA (insertA m k v) i = lookupA m i := by
  induction m with
  | nil => simp [insertA, lookupA, Ne.symm h]
  | cons p rest ih =>
      obtain ⟨k', v'⟩ := p
      by_cases hk : k' = k
      · subst hk
        simp [insertA, lookupA, Ne.symm h]
      · simp only [insertA, if_neg hk, lookupA]
        by_cases hi : k' = i
        · simp [hi]
        · simp [hi, ih]

/-! ### C1 — default registration and the singleton property -/

/-- A context in which `'a'` was registered through `register` with all
defaulted parameters, i.e. `ctx.register('a', f)`. -/
def c1ctx : Ctx := registerDefault emptyCtx "a" "f"

/-- C1: the claim states that after `register('a', f)` with the default
(SINGLETON) scope, two successive `get('a')` calls return the identical
instance and invoke the factory once.  On the code this fails:
`register` passes its `singelton=True` default into the `scope` slot of
`ObjectDefinition`, `True == 'singleton'` is false, so nothing is ever
cached: the two calls return two distinct instances and the factory is
invoked twice. -/
theorem C1_default_register_never_cached :
    (getF 3 c1ctx "a").1 = Except.ok (PyVal.obj 0) ∧
    (getF 3 (getF 3 c1ctx "a").2 "a").1 = Except.ok (PyVal.obj 1) ∧
    PyVal.obj 0 ≠ PyVal.obj 1 ∧
    ((getF 3 (getF 3 c1ctx "a").2 "a").2).calls =
      [⟨"f", [], []⟩, ⟨"f", [], []⟩] ∧
    ((getF 3 c1ctx "a").2).singeltons = [] := by
  refine ⟨rfl, rfl, ?_, rfl, rfl⟩
  intro h
  simp at h

/-! ### C2 — dependency injection and instance identity -/

/-- `register(A, factoryA)` followed by
`register(B, factoryB, kwargs={'dep': Inject(A)})`, both with the
default `singelton=True`. -/
def c2ctx : Ctx :=
  registerF (registerDefault emptyCtx "A" "fA") "B" "fB"
    [] [("dep", Arg.inject "A")] none ScopeVal.pyTrue

/-- C2: the claim states that `get(B)` invokes `factoryB` with `dep`
bound to exactly the instance `get(A)` would return on the same
context.  On the code this fails for the same reason as C1: `A` has
scope `True`, is never cached, so the instance injected as `dep`
(allocation 0) and the instance a `get(A)` on the same context returns
(allocation 2) are distinct.  The trace below shows `factoryB` invoked
with `dep ↦ PyVal.obj 0` while `get(A)` returns `PyVal.obj 2`. -/
theorem C2_injected_dep_not_the_get_A_instance :
    (getF 5 c2ctx "B").1 = Except.ok (PyVal.obj 1) ∧
    ((getF 5 c2ctx "B").2).calls =
      [⟨"fA", [], []⟩, ⟨"fB", [], [("dep", PyVal.obj 0)]⟩] ∧
    (getF 5 ((getF 5 c2ctx "B").2) "A").1 = Except.ok (PyVal.obj 2) ∧
    PyVal.obj 2 ≠ PyVal.obj 0 := by
  refine ⟨rfl, rfl, rfl, ?_⟩
  intro h
  simp at h

/-! ### C3 — unregistered ids raise ObjectDefinitionNotFound -/

/-- C3: for every id with no registered definition and not present in
the singleton cache, `get` raises `ObjectDefinitionNotFound` (leaving
the context unchanged) and `get_scope` raises
`ObjectDefinitionNotFound`. -/
theorem C3_unregistered_id_not_found (ctx : Ctx) (object_id : String)
    (n : Nat) (hcfg : lookupA ctx.config object_id = none)
    (hsing : lookupA ctx.singeltons object_id = none) (hn : 0 < n) :
    getF n ctx object_id = (Except.error (Err.notFound object_id), ctx) ∧
    getScopeF ctx object_id = Except.error (Err.notFound object_id) := by
  obtain ⟨m, rfl⟩ : ∃ m, n = m + 1 := ⟨n - 1, by omega⟩
  constructor
  · simp [getF, hsing, hcfg]
  · simp [getScopeF, hcfg]

/-- Witness for C3 at the empty context and the id `"missing"`. -/
theorem C3_unregistered_id_not_found_witness :
    getF 1 emptyCtx "missing" =
      (Except.error (Err.notFound "missing"), emptyCtx) ∧
    getScopeF emptyCtx "missing" = Except.error (Err.notFound "missing") :=
  C3_unregistered_id_not_found emptyCtx "missing" 1 rfl rfl (by decide)

/-! ### C4 — get_scope and the default scope value -/

/-- A context after `ctx.register('a', fa)` with defaults. -/
def c4ctx : Ctx := registerDefault emptyCtx "a" "fa"

/-- C4: the claim states that `get_scope` returns the scope given at
registration, defaulting to SINGLETON.  On the code the default is the
boolean `True` (the `singelton` parameter), which is not the scope
string `'singleton'`; a later `register` for the same id does overwrite
the definition, so `get_scope` then reflects the newest scope value. -/
theorem C4_default_scope_is_the_boolean_true :
    getScopeF c4ctx "a" = Except.ok ScopeVal.pyTrue ∧
    ScopeVal.pyTrue ≠ SCOPE_SINGLETON ∧
    getScopeF (registerF c4ctx "a" "fa2" [] [] none SCOPE_REQUEST) "a" =
      Except.ok SCOPE_REQUEST :=
  ⟨rfl, by decide, rfl⟩

/-! ### C9 — the inject parameter of register is discarded -/

/-- C9: `register` calls differing only in `inject` produce equal
contexts, hence every subsequent `get` and `get_scope` observation is
identical (`ObjectDefinition.__init__` accepts `inject` and never
stores it). -/
theorem C9_register_inject_discarded (ctx : Ctx) (object_id factory : String)
    (args : List Arg) (kwargs : List (String × Arg))
    (i1 i2 : Option (List (String × String))) (singelton : ScopeVal) :
    registerF ctx object_id factory args kwargs i1 singelton =
      registerF ctx object_id factory args kwargs i2 singelton ∧
    (∀ n o, getF n (registerF ctx object_id factory args kwargs i1 singelton) o =
      getF n (registerF ctx object_id factory args kwargs i2 singelton) o) ∧
    (∀ o, getScopeF (registerF ctx object_id factory args kwargs i1 singelton) o =
      getScopeF (registerF ctx object_id factory args kwargs i2 singelton) o) :=
  ⟨rfl, fun _ _ => rfl, fun _ => rfl⟩

/-! ### C5 — the singleton-cache invariant -/

/-- A property of the context that the resolver preserves is preserved
by `_eval_arg`: every branch returns a context produced only by the
resolver calls. -/
theorem evalArg_preserves (P : Ctx → Prop) (g : Ctx → String → Res)
    (hg : ∀ c o, P c → P ((g c o).2)) :
    ∀ n ctx a, P ctx → P ((evalArg g n ctx a).2) := by
  intro n
  induction n with
  | zero => intro ctx a h; simpa [evalArg] using h
  | succ n ih =>
      intro ctx a h
      cases a with
      | inject oid => exact hg ctx oid h
      | atom v => simpa [evalArg] using h
      | seq as =>
          cases as with
          | nil => simpa [evalArg] using h
          | cons a as =>
              have h1 := ih ctx a h
              rcases hE1 : evalArg g n ctx a with ⟨r1, c1⟩
              rw [hE1] at h1
              cases r1 with
              | error e => simpa [evalArg, hE1] using h1
              | ok v1 =>
                  have h2 := ih c1 (Arg.seq as) h1
                  rcases hE2 : evalArg g n c1 (Arg.seq as) with ⟨r2, c2⟩
                  rw [hE2] at h2
                  cases r2 with
                  | error e => simpa [evalArg, hE1, hE2] using h2
                  | ok v2 => cases v2 <;> simpa [evalArg, hE1, hE2] using h2
      | table es =>
          cases es with
          | nil => simpa [evalArg] using h
          | cons p rest =>
              obtain ⟨k, a⟩ := p
              have h1 := ih ctx a h
              rcases hE1 : evalArg g n ctx a with ⟨r1, c1⟩
              rw [hE1] at h1
              cases r1 with
              | error e => simpa [evalArg, hE1] using h1
              | ok v1 =>
                  have h2 := ih c1 (Arg.table rest) h1
                  rcases hE2 : evalArg g n c1 (Arg.table rest) with ⟨r2, c2⟩
                  rw [hE2] at h2
                  cases r2 with
                  | error e => simpa [evalArg, hE1, hE2] using h2
                  | ok v2 => cases v2 <;> simpa [evalArg, hE1, hE2] using h2

/-- `_create` preserves every context property that the resolver
preserves and that does not depend on the allocation instrumentation
(`nextId`, `calls`). -/
theorem createF_preserves (P : Ctx → Prop) (g : Ctx → String → Res)
    (hg : ∀ c o, P c → P ((g c o).2))
    (hfields : ∀ (c : Ctx) (nid : Nat) (cl : List FactoryCall),
      P c → P ⟨c.config, c.singeltons, nid, cl⟩) :
    ∀ n ctx d, P ctx → P ((createF g n ctx d).2) := by
  intro n ctx d h
  have h1 := evalArg_preserves P g hg n ctx (Arg.seq d.args) h
  rcases hE1 : evalArg g n ctx (Arg.seq d.args) with ⟨r1, c1⟩
  rw [hE1] at h1
  cases r1 with
  | error e => simpa [createF, hE1] using h1
  | ok v1 =>
      cases v1 with
      | list argVals =>
          have h2 := evalArg_preserves P g hg n c1 (Arg.table d.kwargs) h1
          rcases hE2 : evalArg g n c1 (Arg.table d.kwargs) with ⟨r2, c2⟩
          rw [hE2] at h2
          cases r2 with
          | error e => simpa [createF, hE1, hE2] using h2
          | ok v2 =>
              cases v2 with
              | dict kwVals =>
                  have := hfields c2 (c2.nextId + 1)
                    (c2.calls ++ [⟨d.factory, argVals, kwVals⟩]) h2
                  simpa [createF, hE1, hE2] using this
              | obj o => simpa [createF, hE1, hE2] using h2
              | int i => simpa [createF, hE1, hE2] using h2
              | str s => simpa [createF, hE1, hE2] using h2
              | list l => simpa [createF, hE1, hE2] using h2
      | obj o => simpa [createF, hE1] using h1
      | int i => simpa [createF, hE1] using h1
      | str s => simpa [createF, hE1] using h1
      | dict d2 => simpa [createF, hE1] using h1

/-- `get` never touches the registry: the returned context's `config`
is the input `config` ("stored definitions are not mutated"). -/
theorem getF_preserves_config :
    ∀ n ctx object_id, ((getF n ctx object_id).2).config = ctx.config := by
  intro n
  induction n with
  | zero => intro ctx oid; simp [getF]
  | succ n ih =>
      intro ctx oid
      cases hs : lookupA ctx.singeltons oid with
      | some w => simp [getF, hs]
      | none =>
          cases hc : lookupA ctx.config oid with
          | none => simp [getF, hs, hc]
          | some d =>
              have hcr := createF_preserves (fun c => c.config = ctx.config)
                (getF n) (fun c o hP => (ih c o).trans hP)
                (fun c nid cl hP => hP) n ctx d rfl
              rcases hE : createF (getF n) n ctx d with ⟨r, c⟩
              rw [hE] at hcr
              cases r with
              | error e => simpa [getF, hs, hc, hE] using hcr
              | ok o =>
                  by_cases hsc : d.scope = SCOPE_SINGLETON
                  · simpa [getF, hs, hc, hE, hsc] using hcr
                  · simpa [getF, hs, hc, hE, hsc] using hcr

/-- Monotonicity of the singleton cache under `get`: a binding present
in `_singeltons` is still present, with the same instance, after any
`get` call.  The only write, at the end of a cache miss, targets an id
that was absent from the cache when the call began. -/
theorem getF_preserves_singelton_binding :
    ∀ n ctx object_id i v, lookupA ctx.singeltons i = some v →
      lookupA ((getF n ctx object_id).2).singeltons i = some v := by
  intro n
  induction n with
  | zero => intro ctx oid i v h; simpa [getF] using h
  | succ n ih =>
      intro ctx oid i v h
      cases hs : lookupA ctx.singeltons oid with
      | some w => simpa [getF, hs] using h
      | none =>
          cases hc : lookupA ctx.config oid with
          | none => simpa [getF, hs, hc] using h
          | some d =>
              have hcr := createF_preserves
                (fun c => lookupA c.singeltons i = some v) (getF n)
                (fun c o hP => ih c o i v hP) (fun c nid cl hP => hP)
                n ctx d h
              rcases hE : createF (getF n) n ctx d with ⟨r, c⟩
              rw [hE] at hcr
              cases r with
              | error e => simpa [getF, hs, hc, hE] using hcr
              | ok o =>
                  by_cases hsc : d.scope = SCOPE_SINGLETON
                  · have hne : i ≠ oid := by
                      intro hh
                      rw [hh] at h
                      rw [h] at hs
                      cases hs
                    simpa [getF, hs, hc, hE, hsc,
                      lookupA_insertA_ne c.singeltons oid i o hne] using hcr
                  · simpa [getF, hs, hc, hE, hsc] using hcr

/-- `load_config` only writes the registry. -/
theorem loadConfigF_singeltons (cfg : List RegEntry) :
    ∀ ctx : Ctx, (loadConfigF ctx cfg).singeltons = ctx.singeltons := by
  induction cfg with
  | nil => intro ctx; rfl
  | cons e cfg ih =>
      intro ctx
      simpa [loadConfigF, registerF] using
        ih (registerF ctx e.object_id e.factory e.args e.kwargs e.inject
          e.singelton)

/-- Singleton-cache bindings survive every non-`reset` API call. -/
theorem stepOp_preserves_singelton_binding (ctx : Ctx) (op : Op) (i : String)
    (v : PyVal) (h : lookupA ctx.singeltons i = some v) :
    lookupA (stepOp ctx op).singeltons i = some v := by
  cases op with
  | registerOp oid fac a k inj s => simpa [stepOp, registerF] using h
  | loadConfigOp cfg => simpa [stepOp, loadConfigF_singeltons cfg ctx] using h
  | getOp n oid => exact getF_preserves_singelton_binding n ctx oid i v h
  | getScopeOp oid => simpa [stepOp] using h

/-- C5: if `object_id` is in the singleton cache with instance `v`,
then after any sequence of `register`/`load_config`/`get`/`get_scope`
calls it is still cached with `v`, and `get(object_id)` returns `v`
leaving the context unchanged — in particular no factory is
invoked. -/
theorem C5_cached_singleton_always_returned (ctx : Ctx) (ops : List Op)
    (object_id : String) (v : PyVal) (n : Nat)
    (h : lookupA ctx.singeltons object_id = some v) (hn : 0 < n) :
    lookupA (runOps ctx ops).singeltons object_id = some v ∧
    getF n (runOps ctx ops) object_id = (Except.ok v, runOps ctx ops) := by
  have hrun : lookupA (runOps ctx ops).singeltons object_id = some v := by
    induction ops generalizing ctx with
    | nil => exact h
    | cons op ops ih =>
        simpa [runOps] using
          ih (stepOp ctx op)
            (stepOp_preserves_singelton_binding ctx op object_id v h)
  refine ⟨hrun, ?_⟩
  obtain ⟨m, rfl⟩ : ∃ m, n = m + 1 := ⟨n - 1, by omega⟩
  simp [getF, hrun]

/-- A context whose singleton cache already holds `"s"`. -/
def c5ctx : Ctx := ⟨[], [("s", PyVal.obj 0)], 1, [⟨"fs", [], []⟩]⟩

/-- The operation sequence exercised by the C5 witness. -/
def c5ops : List Op :=
  [Op.registerOp "t" "ft" [] [] none ScopeVal.pyTrue,
   Op.getOp 3 "t", Op.getScopeOp "t",
   Op.loadConfigOp [⟨"u", "fu", [], [], none, SCOPE_SINGLETON⟩],
   Op.getOp 3 "u"]

/-- Witness for C5 on a concrete cache and operation sequence. -/
theorem C5_cached_singleton_always_returned_witness :
    lookupA (runOps c5ctx c5ops).singeltons "s" = some (PyVal.obj 0) ∧
    getF 2 (runOps c5ctx c5ops) "s" =
      (Except.ok (PyVal.obj 0), runOps c5ctx c5ops) :=
  C5_cached_singleton_always_returned c5ctx c5ops "s" (PyVal.obj 0) 2 rfl
    (by decide)

/-! ### C8 — reset clears the registry and the singleton cache -/

/-- C8: after `reset()` both the registry and the singleton cache are
empty; re-requesting a previously cached id fails with
`ObjectDefinitionNotFound` when no definition was re-registered, and
after a re-registration it succeeds through a new factory invocation (a
fresh allocation appended to the call trace) rather than a cache
hit. -/
theorem C8_reset_clears_registry_and_cache (ctx : Ctx) (object_id : String)
    (v : PyVal) (fac : String) (sc : ScopeVal) (n : Nat)
    (hv : lookupA ctx.singeltons object_id = some v) (hn : 2 ≤ n) :
    (resetF ctx).config = [] ∧ (resetF ctx).singeltons = [] ∧
    getF n (resetF ctx) object_id =
      (Except.error (Err.notFound object_id), resetF ctx) ∧
    (getF n (registerF (resetF ctx) object_id fac [] [] none sc)
        object_id).1 = Except.ok (PyVal.obj ctx.nextId) ∧
    ((getF n (registerF (resetF ctx) object_id fac [] [] none sc)
        object_id).2).calls = ctx.calls ++ [⟨fac, [], []⟩] := by
  obtain ⟨m, rfl⟩ : ∃ m, n = m + 2 := ⟨n - 2, by omega⟩
  refine ⟨rfl, rfl, ?_, ?_⟩
  · simp [getF, resetF, lookupA]
  · by_cases hsc : sc = SCOPE_SINGLETON <;>
      simp [getF, resetF, registerF, insertA, lookupA, createF, evalArg,
        ObjectDefinition.make, hsc]

/-- A context with a cached singleton `"x"` (as left by a
`register('x', fx, singelton='singleton')` followed by `get('x')`). -/
def c8ctx : Ctx :=
  ⟨[("x", ObjectDefinition.make "x" "fx" [] [] none SCOPE_SINGLETON)],
   [("x", PyVal.obj 0)], 1, [⟨"fx", [], []⟩]⟩

/-- Witness for C8: reset, a failing re-request, and a successful
re-request after re-registration. -/
theorem C8_reset_clears_registry_and_cache_witness :
    (resetF c8ctx).config = [] ∧ (resetF c8ctx).singeltons = [] ∧
    getF 2 (resetF c8ctx) "x" =
      (Except.error (Err.notFound "x"), resetF c8ctx) ∧
    (getF 2 (registerF (resetF c8ctx) "x" "fx" [] [] none SCOPE_SINGLETON)
        "x").1 = Except.ok (PyVal.obj 1) ∧
    ((getF 2 (registerF (resetF c8ctx) "x" "fx" [] [] none SCOPE_SINGLETON)
        "x").2).calls = [⟨"fx", [], []⟩, ⟨"fx", [], []⟩] :=
  C8_reset_clears_registry_and_cache c8ctx "x" (PyVal.obj 0) "fx"
    SCOPE_SINGLETON 2 rfl (by decide)

/-! ### C6 — nested sequence evaluation with an embedded Inject -/

/-- A nesting context describing where an `Inject` marker sits inside a
tree of ordered sequences: at the hole, or inside a sequence with plain
sibling values before and after. -/
inductive SeqHole where
  | here : SeqHole
  | deeper : List PyVal → SeqHole → List PyVal → SeqHole

/-- Plugs an argument into the nesting context, producing the
registration-time argument tree. -/
def plugArg : SeqHole → Arg → Arg
  | SeqHole.here, a => a
  | SeqHole.deeper pre h post, a =>
      Arg.seq (pre.map Arg.atom ++ plugArg h a :: post.map Arg.atom)

/-- Plugs a value into the nesting context, producing the evaluated
tree: the same sequence shape with every sibling unchanged. -/
def plugVal : SeqHole → PyVal → PyVal
  | SeqHole.here, v => v
  | SeqHole.deeper pre h post, v => PyVal.list (pre ++ plugVal h v :: post)

/-- Structural fuel sufficient to traverse the nesting context. -/
def fuelNeed : SeqHole → Nat
  | SeqHole.here => 1
  | SeqHole.deeper pre h post => pre.length + fuelNeed h + post.length + 2

/-- A sequence of plain values evaluates to the same list of values,
leaving the context untouched. -/
theorem evalArg_seq_atoms (g : Ctx → String → Res) (vs : List PyVal) :
    ∀ (m : Nat) (c : Ctx), vs.length + 1 ≤ m →
      evalArg g m c (Arg.seq (vs.map Arg.atom)) =
        (Except.ok (PyVal.list vs), c) := by
  induction vs with
  | nil =>
      intro m c hm
      obtain ⟨k, rfl⟩ : ∃ k, m = k + 1 := ⟨m - 1, by omega⟩
      simp [evalArg]
  | cons v vs ih =>
      intro m c hm
      obtain ⟨k, rfl⟩ : ∃ k, m = k + 1 := ⟨m - 1, by omega⟩
      have hk : vs.length + 1 ≤ k := by simp at hm; omega
      obtain ⟨k', rfl⟩ : ∃ k', k = k' + 1 := ⟨k - 1, by omega⟩
      have h1 : evalArg g (k' + 1) c (Arg.atom v) = (Except.ok v, c) := rfl
      have h2 := ih (k' + 1) c hk
      simp [evalArg, h1, h2]

/-- Evaluating a sequence that starts with plain values prepends those
values to the evaluation of the remaining elements. -/
theorem evalArg_seq_atom_prefix (g : Ctx → String → Res) (ctx : Ctx)
    (rest : List Arg) (vs2 : List PyVal) (c2 : Ctx) (K : Nat)
    (hK : 1 ≤ K)
    (hrest : ∀ m, K ≤ m → evalArg g m ctx (Arg.seq rest) =
      (Except.ok (PyVal.list vs2), c2)) :
    ∀ (pre : List PyVal) (m : Nat), pre.length + K ≤ m →
      evalArg g m ctx (Arg.seq (pre.map Arg.atom ++ rest)) =
        (Except.ok (PyVal.list (pre ++ vs2)), c2) := by
  intro pre
  induction pre with
  | nil =>
      intro m hm
      simpa using hrest m (by simpa using hm)
  | cons v pre ih =>
      intro m hm
      simp only [List.length_cons] at hm
      obtain ⟨k, rfl⟩ : ∃ k, m = k + 1 := ⟨m - 1, by omega⟩
      have hk : pre.length + K ≤ k := by omega
      obtain ⟨k', rfl⟩ : ∃ k', k = k' + 1 := ⟨k - 1, by omega⟩
      have h1 : evalArg g (k' + 1) ctx (Arg.atom v) = (Except.ok v, ctx) := rfl
      have h2 := ih (k' + 1) hk
      simp [evalArg, h1, h2]

/-- Evaluating the plugged `Inject` marker under any nesting of
sequences: the result is the same nesting of lists with the hole
replaced by the resolved instance and every sibling value unchanged,
and the context is the one produced by the single resolver call. -/
theorem evalArg_plug (g : Ctx → String → Res) (ctx ctxA : Ctx) (A : String)
    (av : PyVal) (hg : g ctx A = (Except.ok av, ctxA)) :
    ∀ (h : SeqHole) (m : Nat), fuelNeed h ≤ m →
      evalArg g m ctx (plugArg h (Arg.inject A)) =
        (Except.ok (plugVal h av), ctxA) := by
  intro h
  induction h with
  | here =>
      intro m hm
      obtain ⟨k, rfl⟩ : ∃ k, m = k + 1 := ⟨m - 1, by simp [fuelNeed] at hm; omega⟩
      simpa [evalArg, plugArg, plugVal] using hg
  | deeper pre hh post ih =>
      intro m hm
      simp only [fuelNeed] at hm
      have hrest : ∀ m', fuelNeed hh + post.length + 2 ≤ m' →
          evalArg g m' ctx
            (Arg.seq (plugArg hh (Arg.inject A) :: post.map Arg.atom)) =
            (Except.ok (PyVal.list (plugVal hh av :: post)), ctxA) := by
        intro m' hm'
        obtain ⟨k, rfl⟩ : ∃ k, m' = k + 1 := ⟨m' - 1, by omega⟩
        have h1 := ih k (by omega)
        have h2 := evalArg_seq_atoms g post k ctxA (by omega)
        simp [evalArg, h1, h2]
      have := evalArg_seq_atom_prefix g ctx
        (plugArg hh (Arg.inject A) :: post.map Arg.atom)
        (plugVal hh av :: post) ctxA (fuelNeed hh + post.length + 2)
        (by omega) hrest pre m (by omega)
      simpa [plugArg, plugVal] using this

/-- C6: for a definition whose `args` contain, at arbitrary nesting
depth inside ordered sequences, an `Inject(A)` marker, `get` invokes
the factory with a freshly built argument structure in which the marker
position holds the instance resolved for `A`, every sibling value is
unchanged and in its original order, and the stored definitions
(`config`, holding the original `args`/`kwargs`) are not mutated. -/
theorem C6_nested_inject_substitution (ctx ctxA : Ctx) (B A f : String)
    (sc : ScopeVal) (aPre aPost : List PyVal) (h : SeqHole) (n : Nat)
    (av : PyVal)
    (hB : lookupA ctx.config B = some (ObjectDefinition.make B f
      (aPre.map Arg.atom ++ plugArg h (Arg.inject A) :: aPost.map Arg.atom)
      [] none sc))
    (hsing : lookupA ctx.singeltons B = none)
    (hA : getF n ctx A = (Except.ok av, ctxA))
    (hfuel : aPre.length + fuelNeed h + aPost.length + 2 ≤ n) :
    (getF (n + 1) ctx B).1 = Except.ok (PyVal.obj ctxA.nextId) ∧
    ((getF (n + 1) ctx B).2).calls =
      ctxA.calls ++ [⟨f, aPre ++ plugVal h av :: aPost, []⟩] ∧
    ((getF (n + 1) ctx B).2).config = ctx.config := by
  have hargs := evalArg_plug (getF n) ctx ctxA A av hA
    (SeqHole.deeper aPre h aPost) n (by simp [fuelNeed]; omega)
  simp only [plugArg, plugVal] at hargs
  have hcfg : ctxA.config = ctx.config := by
    have hpc := getF_preserves_config n ctx A
    rw [hA] at hpc
    exact hpc
  obtain ⟨m, rfl⟩ : ∃ m, n = m + 2 := ⟨n - 2, by omega⟩
  have hkw : evalArg (getF (m + 2)) (m + 2) ctxA (Arg.table []) =
      (Except.ok (PyVal.dict []), ctxA) := rfl
  rw [show m + 2 + 1 = (m + 2) + 1 from rfl, getF_succ]
  by_cases hsc : sc = SCOPE_SINGLETON <;>
    simp [hsing, hB, createF, ObjectDefinition.make, hargs, hkw, hsc, hcfg]

/-- `register('A', fA)` then `register('B', fB, args=[7, [8, Inject('A'),
9], 6])` (both with the default `singelton=True`). -/
def c6ctx : Ctx :=
  registerF (registerDefault emptyCtx "A" "fA") "B" "fB"
    [Arg.atom (PyVal.int 7),
     Arg.seq [Arg.atom (PyVal.int 8), Arg.inject "A", Arg.atom (PyVal.int 9)],
     Arg.atom (PyVal.int 6)]
    [] none ScopeVal.pyTrue

/-- The context after resolving `'A'` on `c6ctx`. -/
def c6ctxA : Ctx := (getF 9 c6ctx "A").2

/-- Witness for C6 at nesting depth two: `fB` receives
`[7, [8, <instance of A>, 9], 6]`. -/
theorem C6_nested_inject_substitution_witness :
    (getF 10 c6ctx "B").1 = Except.ok (PyVal.obj 1) ∧
    ((getF 10 c6ctx "B").2).calls =
      [⟨"fA", [], []⟩,
       ⟨"fB",
        [PyVal.int 7, PyVal.list [PyVal.int 8, PyVal.obj 0, PyVal.int 9],
         PyVal.int 6], []⟩] ∧
    ((getF 10 c6ctx "B").2).config = c6ctx.config := by
  have hmain := C6_nested_inject_substitution c6ctx c6ctxA "B" "A" "fB"
    ScopeVal.pyTrue [PyVal.int 7] [PyVal.int 6]
    (SeqHole.deeper [PyVal.int 8] SeqHole.here [PyVal.int 9]) 9 (PyVal.obj 0)
    rfl rfl rfl (by decide)
  exact hmain

/-! ### C7 — request/session scoped isolation -/

theorem scope_request_ne_singleton : SCOPE_REQUEST ≠ SCOPE_SINGLETON := by
  decide

theorem scope_session_ne_singleton : SCOPE_SESSION ≠ SCOPE_SINGLETON := by
  decide

theorem scope_session_ne_request : SCOPE_SESSION ≠ SCOPE_REQUEST := by
  decide

/-- Resolving a definition with empty `args`/`kwargs` and a
non-`'singleton'` scope: a fresh allocation, no caching. -/
theorem getF_simple_def (app : Ctx) (object_id fac : String) (sc : ScopeVal)
    (m : Nat) (hs : lookupA app.singeltons object_id = none)
    (hc : lookupA app.config object_id =
      some (ObjectDefinition.make object_id fac [] [] none sc))
    (hsc : sc ≠ SCOPE_SINGLETON) :
    getF (m + 2) app object_id =
      (Except.ok (PyVal.obj app.nextId),
        { app with nextId := app.nextId + 1,
                   calls := app.calls ++ [⟨fac, [], []⟩] }) := by
  rw [show m + 2 = (m + 1) + 1 from rfl, getF_succ]
  simp [hs, hc, createF, ObjectDefinition.make, evalArg, hsc]

/-- A base context with `'R'` declared request-scoped and `'S'`
session-scoped, wrapped by two `RequestApplicationContext`s over one
request whose session already contains the session-store key (so the
store `d0` persists and is genuinely shared). -/
def c7state (app : Ctx) (d0 : List (String × PyVal)) : RState :=
  ⟨app, ⟨true, some d0⟩, [], []⟩

/-- C7 (amended): with the shared session store persistent — the
request's session contains `SESSION_KEY`, so `_get_session_store` does
not re-initialise `request[SESSION_KEY]` — two wrappers over the same
base context obtain two distinct instances for the same REQUEST-scoped
id, and the identical instance for the same SESSION-scoped id. -/
theorem C7_scoped_isolation_amended (app : Ctx) (d0 : List (String × PyVal))
    (R S fR fS : String) (n : Nat)
    (hR : lookupA app.config R =
      some (ObjectDefinition.make R fR [] [] none SCOPE_REQUEST))
    (hS : lookupA app.config S =
      some (ObjectDefinition.make S fS [] [] none SCOPE_SESSION))
    (hRs : lookupA app.singeltons R = none)
    (hSs : lookupA app.singeltons S = none)
    (hdR : lookupA d0 R = none) (hdS : lookupA d0 S = none)
    (hn : 2 ≤ n) :
    ((rget true n (c7state app d0) R).1 = Except.ok (PyVal.obj app.nextId) ∧
      (rget false n (rget true n (c7state app d0) R).2 R).1 =
        Except.ok (PyVal.obj (app.nextId + 1)) ∧
      PyVal.obj app.nextId ≠ PyVal.obj (app.nextId + 1)) ∧
    ((rget true n (c7state app d0) S).1 = Except.ok (PyVal.obj app.nextId) ∧
      (rget false n (rget true n (c7state app d0) S).2 S).1 =
        Except.ok (PyVal.obj app.nextId)) := by
  obtain ⟨m, rfl⟩ : ∃ m, n = m + 2 := ⟨n - 2, by omega⟩
  have hgR := getF_simple_def app R fR SCOPE_REQUEST m hRs hR
    scope_request_ne_singleton
  have hgR2 := getF_simple_def
    { app with nextId := app.nextId + 1, calls := app.calls ++ [⟨fR, [], []⟩] }
    R fR SCOPE_REQUEST m (by simpa using hRs) (by simpa using hR)
    scope_request_ne_singleton
  have hgS := getF_simple_def app S fS SCOPE_SESSION m hSs hS
    scope_session_ne_singleton
  have hne : PyVal.obj app.nextId ≠ PyVal.obj (app.nextId + 1) := by
    intro hh
    simp at hh
  refine ⟨⟨?_, ?_, hne⟩, ?_, ?_⟩
  · simp [rget, c7state, getSessionStore, rstore, setRstore, getScopeF,
      lookupA, hdR, hgR, hR, ObjectDefinition.make,
      scope_request_ne_singleton]
  · simp [rget, c7state, getSessionStore, rstore, setRstore, getScopeF,
      lookupA, hdR, hgR, hgR2, hR, ObjectDefinition.make,
      scope_request_ne_singleton]
  · simp [rget, c7state, getSessionStore, rstore, setRstore, getScopeF,
      lookupA, hdS, hgS, hS, ObjectDefinition.make,
      scope_session_ne_singleton, scope_session_ne_request]
  · simp [rget, c7state, getSessionStore, rstore, setRstore, getScopeF,
      lookupA, hdS, hgS, hS, ObjectDefinition.make,
      scope_session_ne_singleton, scope_session_ne_request,
      lookupA_insertA_self]

/-- Base context for the concrete C7 scenarios. -/
def c7app : Ctx :=
  registerF (registerF emptyCtx "R" "fR" [] [] none SCOPE_REQUEST)
    "S" "fS" [] [] none SCOPE_SESSION

/-- Witness for the amended C7 on a concrete base context and an empty
shared persistent session store. -/
theorem C7_scoped_isolation_amended_witness :
    ((rget true 2 (c7state c7app []) "R").1 = Except.ok (PyVal.obj 0) ∧
      (rget false 2 (rget true 2 (c7state c7app []) "R").2 "R").1 =
        Except.ok (PyVal.obj 1) ∧
      PyVal.obj 0 ≠ PyVal.obj 1) ∧
    ((rget true 2 (c7state c7app []) "S").1 = Except.ok (PyVal.obj 0) ∧
      (rget false 2 (rget true 2 (c7state c7app []) "S").2 "S").1 =
        Except.ok (PyVal.obj 0)) :=
  C7_scoped_isolation_amended c7app [] "R" "S" "fR" "fS" 2
    rfl rfl rfl rfl rfl rfl (by decide)

/-- C7 counterexample: with a realistic request — its session does not
contain `SESSION_KEY` — two wrappers over the same base context and the
same request object (hence the same `request[SESSION_KEY]` slot)
resolve the same SESSION-scoped id to two *distinct* instances: each
access to `_get_session_store` re-initialises `request[SESSION_KEY]`
to a fresh empty dict, so the instance stored by the first wrapper is
wiped before the second wrapper looks it up.  The claim as stated is
therefore false on the code. -/
theorem C7_session_sharing_counterexample :
    (rget true 2 ⟨c7app, ⟨false, none⟩, [], []⟩ "S").1 =
      Except.ok (PyVal.obj 0) ∧
    (rget false 2 (rget true 2 ⟨c7app, ⟨false, none⟩, [], []⟩ "S").2 "S").1 =
      Except.ok (PyVal.obj 1) ∧
    PyVal.obj 0 ≠ PyVal.obj 1 ∧
    ((rget true 2 ⟨c7app, ⟨false, none⟩, [], []⟩ "S").2).req.item =
      some [("S", PyVal.obj 0)] := by
  refine ⟨rfl, rfl, ?_, rfl⟩
  intro h
  simp at h

/-! ### C10 — store hits bypass the wrapped context -/

/-- C10 (amended): a `RequestApplicationContext.get` for an id present
in the wrapper's request-local store returns the cached instance and
leaves the wrapped `ApplicationContext` untouched (in particular no
factory runs and no base registration is needed), provided the session
store access itself does not raise (`request.session` containing
`SESSION_KEY` while `request[SESSION_KEY]` was never assigned raises
`KeyError` before the request store is consulted); an id present in the
session store is likewise returned without consulting the base context
provided the request's session contains `SESSION_KEY` — without that,
`_get_session_store` re-initialises the store and the hit is lost. -/
theorem C10_store_hits_bypass_base_amended (s : RState) (which : Bool)
    (object_id : String) (v : PyVal) (st : List (String × PyVal)) (n : Nat) :
    (lookupA (rstore which s) object_id = some v →
      ¬(s.req.sessionHasKey = true ∧ s.req.item = none) →
      (rget which n s object_id).1 = Except.ok v ∧
      ((rget which n s object_id).2).app = s.app) ∧
    (s.req.sessionHasKey = true → s.req.item = some st →
      lookupA (rstore which s) object_id = none →
      lookupA st object_id = some v →
      (rget which n s object_id).1 = Except.ok v ∧
      ((rget which n s object_id).2).app = s.app) := by
  constructor
  · intro hhit hok
    rcases hsess : s.req.sessionHasKey with hfalse | htrue
    · have hwipe : getSessionStore s.req =
          (Except.ok [], { s.req with item := some [] }) := by
        simp [getSessionStore, hsess]
      simp [rget, hwipe, rstore]
      cases which <;> simp_all [rstore]
    · rcases hitem : s.req.item with hnone | ⟨st0⟩
      · exact absurd ⟨hsess, hitem⟩ hok
      · have hread : getSessionStore s.req = (Except.ok st0, s.req) := by
          simp [getSessionStore, hsess, hitem]
        simp [rget, hread, rstore]
        cases which <;> simp_all [rstore]
  · intro hsess hitem hmiss hhit
    have hread : getSessionStore s.req = (Except.ok st, s.req) := by
      simp [getSessionStore, hsess, hitem]
    simp [rget, hread, rstore]
    cases which <;> simp_all [rstore]

/-- A wrapper state whose request store holds `"X"` and whose persistent
session store holds `"Y"`, over an *empty* base context (nothing
registered). -/
def c10s : RState :=
  ⟨emptyCtx, ⟨true, some [("Y", PyVal.obj 5)]⟩, [("X", PyVal.obj 4)], []⟩

/-- Witness for the amended C10: both store hits succeed over a base
context with no registrations, leaving the base context untouched. -/
theorem C10_store_hits_bypass_base_amended_witness :
    (rget true 3 c10s "X").1 = Except.ok (PyVal.obj 4) ∧
    ((rget true 3 c10s "X").2).app = c10s.app ∧
    (rget true 3 c10s "Y").1 = Except.ok (PyVal.obj 5) ∧
    ((rget true 3 c10s "Y").2).app = c10s.app := by
  obtain ⟨hA, -⟩ := C10_store_hits_bypass_base_amended c10s true "X"
    (PyVal.obj 4) [("Y", PyVal.obj 5)] 3
  obtain ⟨-, hB⟩ := C10_store_hits_bypass_base_amended c10s true "Y"
    (PyVal.obj 5) [("Y", PyVal.obj 5)] 3
  have hA2 := hA rfl (by simp [c10s])
  have hB2 := hB rfl rfl rfl rfl
  exact ⟨hA2.1, hA2.2, hB2.1, hB2.2⟩

/-- A wrapper state whose session-store slot `request[SESSION_KEY]`
holds `"X"`, but whose request's *session* does not contain
`SESSION_KEY`; the base context is empty. -/
def c10bad : RState := ⟨emptyCtx, ⟨false, some [("X", PyVal.obj 7)]⟩, [], []⟩

/-- C10 counterexample: `"X"` is present in the session store, yet
`get("X")` does not return the cached instance — `_get_session_store`
re-initialises `request[SESSION_KEY]` because the session lacks the
key, the hit is lost, the wrapped context is consulted and raises
`ObjectDefinitionNotFound`.  The claim as stated is therefore false on
the code. -/
theorem C10_session_hit_counterexample :
    (match c10bad.req.item with
      | some st => lookupA st "X"
      | none => none) = some (PyVal.obj 7) ∧
    rget true 3 c10bad "X" =
      (Except.error (Err.notFound "X"),
        ⟨emptyCtx, ⟨false, some []⟩, [], []⟩) := ⟨rfl, rfl⟩
